import Mathlib

/-!
Shallow embedding of the Calctra resource-matching program
(src/app/solana-contracts/resource_matching.rs) together with a model of the
selection algorithm that the second variant (src/contracts/src/resource_matching.rs)
leaves as a comment.

Modelling conventions:
* `Pubkey` is an abstract identity compared by equality; we use `Nat`.
* Rust `u64` values are carried as `Nat`.  Per-instruction counter increments
  (`resource_count += 1`, `computation_request_count += 1`,
  `active_matches += 1`) are modelled as exact natural addition: one increment
  per on-chain instruction cannot feasibly overflow 64 bits.  Arithmetic whose
  overflow or underflow is reachable with few operations or attacker-chosen
  operands is modelled with its machine semantics: the unguarded
  `total_usage_time += actual_duration` and the unguarded
  `active_matches -= 1` follow checked u64 semantics (the Anchor toolchain
  builds with overflow checks, so out-of-range arithmetic aborts the
  instruction); an aborted instruction is rolled back by the runtime and
  leaves no state change.
* `reputation_score` is an `i64` updated with the source's explicit
  `saturating_add` / `saturating_sub`, modelled by clamping on `Int`.
* A failing instruction returns `Except.error`; the ledger keeps the prior
  state (failed transactions are rolled back atomically).
-/

abbrev Pubkey := Nat

/-- Program-defined error codes, from the `ErrorCode` enum of
`src/app/solana-contracts/resource_matching.rs`. -/
inductive ErrorCode where
  | UnauthorizedMatcher
  | RequestNotPending
  | ResourceNotActive
  | InsufficientComputationPower
  | InsufficientMemory
  | PriceTooHigh
  | UnauthorizedCompletion
  | RequestNotMatched
  | ResourceMismatch
deriving DecidableEq, Repr, Fintype

/-- Outcome classification of a transaction: a program error code, an
arithmetic abort (checked u64 overflow or underflow), or a missing account. -/
inductive TxError where
  | prog (e : ErrorCode)
  | overflow
  | badAccount
deriving DecidableEq, Repr

instance decEqExcept {ε α : Type} [DecidableEq ε] [DecidableEq α] :
    DecidableEq (Except ε α) := fun x y =>
  match x, y with
  | Except.ok a, Except.ok b =>
      if h : a = b then isTrue (by rw [h])
      else isFalse (by intro hh; injection hh; contradiction)
  | Except.error e, Except.error f =>
      if h : e = f then isTrue (by rw [h])
      else isFalse (by intro hh; injection hh; contradiction)
  | Except.ok _, Except.error _ => isFalse (fun hh => Except.noConfusion hh)
  | Except.error _, Except.ok _ => isFalse (fun hh => Except.noConfusion hh)

/-- `SystemState` account. -/
structure SystemState where
  authority : Pubkey
  resource_count : Nat
  computation_request_count : Nat
  active_matches : Nat
deriving DecidableEq, Repr

/-- `ResourceAccount` account. -/
structure ResourceAccount where
  resource_id : Nat
  provider : Pubkey
  resource_type : String
  computation_power : Nat
  available_memory : Nat
  location : String
  price_per_unit : Nat
  is_active : Bool
  reputation_score : Int
  total_usage_time : Nat
deriving DecidableEq, Repr

/-- `RequestStatus` enum. -/
inductive RequestStatus where
  | Pending
  | Matched
  | Completed
  | Failed
  | Cancelled
deriving DecidableEq, Repr

/-- `ComputationRequest` account. -/
structure ComputationRequest where
  request_id : Nat
  requester : Pubkey
  computation_type : String
  required_power : Nat
  required_memory : Nat
  max_price_per_unit : Nat
  preferred_location : Option String
  duration_estimate : Nat
  status : RequestStatus
  matched_resource : Option Nat
deriving DecidableEq, Repr

/-- i64 saturating add, as in `reputation_score.saturating_add(1)`. -/
def i64SatAdd (a b : Int) : Int :=
  min (2 ^ 63 - 1) (max (-(2 ^ 63)) (a + b))

/-- i64 saturating sub, as in `reputation_score.saturating_sub(1)`. -/
def i64SatSub (a b : Int) : Int :=
  min (2 ^ 63 - 1) (max (-(2 ^ 63)) (a - b))

/-- `register_resource`: creates a fresh active resource record carrying the
next sequence id and bumps `resource_count`.  Never fails past account
creation. -/
def register_resource (provider : Pubkey) (resource_type : String)
    (computation_power available_memory : Nat) (location : String)
    (price_per_unit : Nat) (st : SystemState) :
    SystemState × ResourceAccount :=
  (⟨st.authority, st.resource_count + 1, st.computation_request_count,
    st.active_matches⟩,
   ⟨st.resource_count, provider, resource_type, computation_power,
    available_memory, location, price_per_unit, true, 0, 0⟩)

/-- `submit_computation_request`: creates a fresh `Pending` request carrying
the next sequence id and bumps `computation_request_count`. -/
def submit_computation_request (requester : Pubkey) (computation_type : String)
    (required_power required_memory max_price_per_unit : Nat)
    (preferred_location : Option String) (duration_estimate : Nat)
    (st : SystemState) : SystemState × ComputationRequest :=
  (⟨st.authority, st.resource_count, st.computation_request_count + 1,
    st.active_matches⟩,
   ⟨st.computation_request_count, requester, computation_type, required_power,
    required_memory, max_price_per_unit, preferred_location, duration_estimate,
    RequestStatus.Pending, none⟩)

/-- `match_resource`: the six `require!` checks in source order, then the
writes.  Note that the recorded `matched_resource` is the caller-supplied
`resource_id` argument, not `res.resource_id`. -/
def match_resource (matcher : Pubkey) (request_id resource_id : Nat)
    (st : SystemState) (req : ComputationRequest) (res : ResourceAccount) :
    Except TxError (SystemState × ComputationRequest) :=
  if matcher = st.authority ∨ matcher = res.provider then
    if req.status = RequestStatus.Pending then
      if res.is_active = true then
        if req.required_power ≤ res.computation_power then
          if req.required_memory ≤ res.available_memory then
            if res.price_per_unit ≤ req.max_price_per_unit then
              Except.ok
                (⟨st.authority, st.resource_count,
                  st.computation_request_count, st.active_matches + 1⟩,
                 { req with
                    status := RequestStatus.Matched,
                    matched_resource := some resource_id })
            else Except.error (TxError.prog ErrorCode.PriceTooHigh)
          else Except.error (TxError.prog ErrorCode.InsufficientMemory)
        else Except.error (TxError.prog ErrorCode.InsufficientComputationPower)
      else Except.error (TxError.prog ErrorCode.ResourceNotActive)
    else Except.error (TxError.prog ErrorCode.RequestNotPending)
  else Except.error (TxError.prog ErrorCode.UnauthorizedMatcher)

/-- `complete_computation`: the three `require!` checks in source order, then
the unguarded `total_usage_time += actual_duration` (checked u64 add), the
saturating reputation update, the terminal status write, and the unguarded
`active_matches -= 1` (checked u64 sub). -/
def complete_computation (caller : Pubkey) (request_id actual_duration : Nat)
    (success : Bool) (st : SystemState) (req : ComputationRequest)
    (res : ResourceAccount) :
    Except TxError (SystemState × ComputationRequest × ResourceAccount) :=
  if caller = req.requester ∨ caller = res.provider ∨ caller = st.authority then
    if req.status = RequestStatus.Matched then
      if req.matched_resource = some res.resource_id then
        if res.total_usage_time + actual_duration < 2 ^ 64 then
          if 1 ≤ st.active_matches then
            Except.ok
              (⟨st.authority, st.resource_count,
                st.computation_request_count, st.active_matches - 1⟩,
               { req with
                  status := if success then RequestStatus.Completed
                            else RequestStatus.Failed },
               { res with
                  total_usage_time := res.total_usage_time + actual_duration,
                  reputation_score :=
                    if success then i64SatAdd res.reputation_score 1
                    else i64SatSub res.reputation_score 1 })
          else Except.error TxError.overflow
        else Except.error TxError.overflow
      else Except.error (TxError.prog ErrorCode.ResourceMismatch)
    else Except.error (TxError.prog ErrorCode.RequestNotMatched)
  else Except.error (TxError.prog ErrorCode.UnauthorizedCompletion)

/-- Whole-ledger state: the singleton `SystemState` plus the resource and
request accounts in creation order. -/
structure Chain where
  system : SystemState
  resources : List ResourceAccount
  requests : List ComputationRequest
deriving DecidableEq, Repr

/-- One client-issued instruction against the ledger.  `reqIdx` / `resIdx`
select which accounts the client passes in. -/
inductive Op where
  | register (provider : Pubkey) (resource_type : String)
      (computation_power available_memory : Nat) (location : String)
      (price_per_unit : Nat)
  | submit (requester : Pubkey) (computation_type : String)
      (required_power required_memory max_price_per_unit : Nat)
      (preferred_location : Option String) (duration_estimate : Nat)
  | matchOp (matcher : Pubkey) (reqIdx resIdx request_id resource_id : Nat)
  | completeOp (caller : Pubkey) (reqIdx resIdx request_id actual_duration : Nat)
      (success : Bool)
deriving Repr

/-- Execute one instruction against the ledger. -/
def stepChain (c : Chain) (op : Op) : Except TxError Chain :=
  match op with
  | Op.register p ty pow mem loc price =>
      let r := register_resource p ty pow mem loc price c.system
      Except.ok ⟨r.1, c.resources ++ [r.2], c.requests⟩
  | Op.submit rq ty pow mem maxp ploc dur =>
      let r := submit_computation_request rq ty pow mem maxp ploc dur c.system
      Except.ok ⟨r.1, c.resources, c.requests ++ [r.2]⟩
  | Op.matchOp m reqIdx resIdx rid sid =>
      match c.requests[reqIdx]?, c.resources[resIdx]? with
      | some req, some res =>
          match match_resource m rid sid c.system req res with
          | Except.ok (st', req') =>
              Except.ok ⟨st', c.resources, c.requests.set reqIdx req'⟩
          | Except.error e => Except.error e
      | _, _ => Except.error TxError.badAccount
  | Op.completeOp caller reqIdx resIdx rid dur success =>
      match c.requests[reqIdx]?, c.resources[resIdx]? with
      | some req, some res =>
          match complete_computation caller rid dur success c.system req res with
          | Except.ok (st', req', res') =>
              Except.ok ⟨st', c.resources.set resIdx res', c.requests.set reqIdx req'⟩
          | Except.error e => Except.error e
      | _, _ => Except.error TxError.badAccount

/-- Ledger-level effect of an instruction: a failed transaction is rolled
back, leaving the prior state. -/
def applyStep (c : Chain) (op : Op) : Chain :=
  match stepChain c op with
  | Except.ok c' => c'
  | Except.error _ => c

/-- Run a sequence of instructions. -/
def runChain (c : Chain) (ops : List Op) : Chain :=
  ops.foldl applyStep c

/-- `initialize`: the freshly initialized system with zeroed counters and no
accounts. -/
def initChain (authority : Pubkey) : Chain :=
  ⟨⟨authority, 0, 0, 0⟩, [], []⟩

/-- Number of requests currently in `Matched` status. -/
def countMatched (l : List ComputationRequest) : Nat :=
  l.countP (fun r => r.status = RequestStatus.Matched)

/-- Default record used with `List.getD` (fresh accounts are zeroed). -/
def defaultResource : ResourceAccount :=
  ⟨0, 0, "", 0, 0, "", 0, false, 0, 0⟩

/-- Default record used with `List.getD`. -/
def defaultRequest : ComputationRequest :=
  ⟨0, 0, "", 0, 0, 0, none, 0, RequestStatus.Pending, none⟩

theorem match_resource_ok_of (matcher : Pubkey) (request_id resource_id : Nat)
    (st : SystemState) (req : ComputationRequest) (res : ResourceAccount)
    (hauth : matcher = st.authority ∨ matcher = res.provider)
    (hpend : req.status = RequestStatus.Pending)
    (hact : res.is_active = true)
    (hpow : req.required_power ≤ res.computation_power)
    (hmem : req.required_memory ≤ res.available_memory)
    (hprice : res.price_per_unit ≤ req.max_price_per_unit) :
    match_resource matcher request_id resource_id st req res =
      Except.ok
        (⟨st.authority, st.resource_count, st.computation_request_count,
          st.active_matches + 1⟩,
         { req with
            status := RequestStatus.Matched,
            matched_resource := some resource_id }) := by
  unfold match_resource
  rw [if_pos hauth, if_pos hpend, if_pos hact, if_pos hpow, if_pos hmem,
    if_pos hprice]

theorem match_resource_inv (matcher : Pubkey) (request_id resource_id : Nat)
    (st : SystemState) (req : ComputationRequest) (res : ResourceAccount)
    (st' : SystemState) (req' : ComputationRequest)
    (h : match_resource matcher request_id resource_id st req res =
      Except.ok (st', req')) :
    st' = ⟨st.authority, st.resource_count, st.computation_request_count,
      st.active_matches + 1⟩ ∧
    req' = { req with
              status := RequestStatus.Matched,
              matched_resource := some resource_id } ∧
    (matcher = st.authority ∨ matcher = res.provider) ∧
    req.status = RequestStatus.Pending ∧
    res.is_active = true ∧
    req.required_power ≤ res.computation_power ∧
    req.required_memory ≤ res.available_memory ∧
    res.price_per_unit ≤ req.max_price_per_unit := by
  unfold match_resource at h
  by_cases h1 : matcher = st.authority ∨ matcher = res.provider
  · rw [if_pos h1] at h
    by_cases h2 : req.status = RequestStatus.Pending
    · rw [if_pos h2] at h
      by_cases h3 : res.is_active = true
      · rw [if_pos h3] at h
        by_cases h4 : req.required_power ≤ res.computation_power
        · rw [if_pos h4] at h
          by_cases h5 : req.required_memory ≤ res.available_memory
          · rw [if_pos h5] at h
            by_cases h6 : res.price_per_unit ≤ req.max_price_per_unit
            · rw [if_pos h6] at h
              injection h with h'
              simp only [Prod.mk.injEq] at h'
              exact ⟨h'.1.symm, h'.2.symm, h1, h2, h3, h4, h5, h6⟩
            · rw [if_neg h6] at h; exact Except.noConfusion h
          · rw [if_neg h5] at h; exact Except.noConfusion h
        · rw [if_neg h4] at h; exact Except.noConfusion h
      · rw [if_neg h3] at h; exact Except.noConfusion h
    · rw [if_neg h2] at h; exact Except.noConfusion h
  · rw [if_neg h1] at h; exact Except.noConfusion h

theorem complete_computation_ok_of (caller : Pubkey)
    (request_id actual_duration : Nat) (success : Bool) (st : SystemState)
    (req : ComputationRequest) (res : ResourceAccount)
    (hauth : caller = req.requester ∨ caller = res.provider ∨
      caller = st.authority)
    (hmatched : req.status = RequestStatus.Matched)
    (hres : req.matched_resource = some res.resource_id)
    (hfit : res.total_usage_time + actual_duration < 2 ^ 64)
    (hpos : 1 ≤ st.active_matches) :
    complete_computation caller request_id actual_duration success st req res =
      Except.ok
        (⟨st.authority, st.resource_count, st.computation_request_count,
          st.active_matches - 1⟩,
         { req with
            status := if success then RequestStatus.Completed
                      else RequestStatus.Failed },
         { res with
            total_usage_time := res.total_usage_time + actual_duration,
            reputation_score :=
              if success then i64SatAdd res.reputation_score 1
              else i64SatSub res.reputation_score 1 }) := by
  unfold complete_computation
  rw [if_pos hauth, if_pos hmatched, if_pos hres, if_pos hfit, if_pos hpos]

theorem complete_computation_inv (caller : Pubkey)
    (request_id actual_duration : Nat) (success : Bool) (st : SystemState)
    (req : ComputationRequest) (res : ResourceAccount) (st' : SystemState)
    (req' : ComputationRequest) (res' : ResourceAccount)
    (h : complete_computation caller request_id actual_duration success st req
      res = Except.ok (st', req', res')) :
    st' = ⟨st.authority, st.resource_count, st.computation_request_count,
      st.active_matches - 1⟩ ∧
    req' = { req with
              status := if success then RequestStatus.Completed
                        else RequestStatus.Failed } ∧
    res' = { res with
              total_usage_time := res.total_usage_time + actual_duration,
              reputation_score :=
                if success then i64SatAdd res.reputation_score 1
                else i64SatSub res.reputation_score 1 } ∧
    (caller = req.requester ∨ caller = res.provider ∨
      caller = st.authority) ∧
    req.status = RequestStatus.Matched ∧
    req.matched_resource = some res.resource_id ∧
    res.total_usage_time + actual_duration < 2 ^ 64 ∧
    1 ≤ st.active_matches := by
  unfold complete_computation at h
  by_cases h1 : caller = req.requester ∨ caller = res.provider ∨
      caller = st.authority
  · rw [if_pos h1] at h
    by_cases h2 : req.status = RequestStatus.Matched
    · rw [if_pos h2] at h
      by_cases h3 : req.matched_resource = some res.resource_id
      · rw [if_pos h3] at h
        by_cases h4 : res.total_usage_time + actual_duration < 2 ^ 64
        · rw [if_pos h4] at h
          by_cases h5 : 1 ≤ st.active_matches
          · rw [if_pos h5] at h
            injection h with h'
            simp only [Prod.mk.injEq] at h'
            exact ⟨h'.1.symm, h'.2.1.symm, h'.2.2.symm, h1, h2, h3, h4, h5⟩
          · rw [if_neg h5] at h; exact Except.noConfusion h
        · rw [if_neg h4] at h; exact Except.noConfusion h
      · rw [if_neg h3] at h; exact Except.noConfusion h
    · rw [if_neg h2] at h; exact Except.noConfusion h
  · rw [if_neg h1] at h; exact Except.noConfusion h

/-- Fixture: system state with one registered resource, one submitted request,
no active matches. -/
def stFix : SystemState := ⟨100, 1, 1, 0⟩

/-- Fixture: active resource owned by provider 7. -/
def resFix : ResourceAccount :=
  ⟨0, 7, "GPU", 100, 64, "US", 10, true, 0, 0⟩

/-- Fixture: pending request by requester 8. -/
def reqFix : ComputationRequest :=
  ⟨0, 8, "ML", 50, 32, 20, some "US", 5, RequestStatus.Pending, none⟩

/-- C1: when the authorization, pending-status, activity, capability, price
and reputation preconditions all hold, `match_resource` succeeds, the request
moves from `Pending` to `Matched`, its `matched_resource` becomes
`some resource_id`, and `active_matches` grows by exactly 1. -/
theorem c1_match_success (matcher : Pubkey) (request_id resource_id : Nat)
    (st : SystemState) (req : ComputationRequest) (res : ResourceAccount)
    (minRep : Int)
    (hauth : matcher = st.authority ∨ matcher = res.provider)
    (hpend : req.status = RequestStatus.Pending)
    (hact : res.is_active = true)
    (hpow : req.required_power ≤ res.computation_power)
    (hmem : req.required_memory ≤ res.available_memory)
    (hprice : res.price_per_unit ≤ req.max_price_per_unit)
    (hrep : minRep ≤ res.reputation_score) :
    match_resource matcher request_id resource_id st req res =
      Except.ok
        (⟨st.authority, st.resource_count, st.computation_request_count,
          st.active_matches + 1⟩,
         { req with
            status := RequestStatus.Matched,
            matched_resource := some resource_id }) :=
  match_resource_ok_of matcher request_id resource_id st req res hauth hpend
    hact hpow hmem hprice

/-- C1 witness: the theorem applied at a concrete matching pair. -/
theorem c1_match_success_witness :
    match_resource 100 0 0 stFix reqFix resFix =
      Except.ok
        (⟨100, 1, 1, 1⟩,
         { reqFix with
            status := RequestStatus.Matched,
            matched_resource := some 0 }) :=
  c1_match_success 100 0 0 stFix reqFix resFix 0 (Or.inl (by decide))
    (by decide) (by decide) (by decide) (by decide) (by decide) (by decide)

/-- Fixture for C4: an otherwise qualifying resource with reputation -5. -/
def resLowRep : ResourceAccount :=
  ⟨0, 7, "CPU", 100, 64, "US", 10, true, -5, 0⟩

/-- C4 counterexample: with every code-checked precondition satisfied and the
resource's reputation strictly negative (hence below any non-negative minimum
reputation), `match_resource` still succeeds — it does not fail, with
`ReputationTooLow` or anything else (no such error code exists in the
program). -/
theorem c4_reputation_cex :
    resLowRep.reputation_score < 0 ∧
    match_resource 100 0 0 stFix reqFix resLowRep =
      Except.ok
        (⟨100, 1, 1, 1⟩,
         { reqFix with
            status := RequestStatus.Matched,
            matched_resource := some 0 }) := by
  refine ⟨by decide, ?_⟩
  exact match_resource_ok_of 100 0 0 stFix reqFix resLowRep
    (Or.inl (by decide)) (by decide) (by decide) (by decide) (by decide)
    (by decide)

/-- C4 amended: `match_resource` performs no reputation check; when the six
code-checked preconditions hold it succeeds even though the resource's
reputation is strictly below an arbitrary required minimum. -/
theorem c4_no_reputation_check (matcher : Pubkey)
    (request_id resource_id : Nat) (st : SystemState)
    (req : ComputationRequest) (res : ResourceAccount) (minRep : Int)
    (hauth : matcher = st.authority ∨ matcher = res.provider)
    (hpend : req.status = RequestStatus.Pending)
    (hact : res.is_active = true)
    (hpow : req.required_power ≤ res.computation_power)
    (hmem : req.required_memory ≤ res.available_memory)
    (hprice : res.price_per_unit ≤ req.max_price_per_unit)
    (hlow : res.reputation_score < minRep) :
    match_resource matcher request_id resource_id st req res =
      Except.ok
        (⟨st.authority, st.resource_count, st.computation_request_count,
          st.active_matches + 1⟩,
         { req with
            status := RequestStatus.Matched,
            matched_resource := some resource_id }) :=
  match_resource_ok_of matcher request_id resource_id st req res hauth hpend
    hact hpow hmem hprice

/-- C4 amended witness. -/
theorem c4_no_reputation_check_witness :
    match_resource 7 0 0 stFix reqFix resLowRep =
      Except.ok
        (⟨100, 1, 1, 1⟩,
         { reqFix with
            status := RequestStatus.Matched,
            matched_resource := some 0 }) :=
  c4_no_reputation_check 7 0 0 stFix reqFix resLowRep 0 (Or.inr (by decide))
    (by decide) (by decide) (by decide) (by decide) (by decide) (by decide)

/-- C10: a successful `match_resource` records the caller-supplied
`resource_id` argument as the matched resource, with no check against the id
of the resource account whose activity, capability and price were verified:
with any argument differing from `res.resource_id`, the call still succeeds
and the request records a match to a different id than the verified
resource's. -/
theorem c10_matched_resource_arg (matcher : Pubkey)
    (request_id resource_id : Nat) (st : SystemState)
    (req : ComputationRequest) (res : ResourceAccount)
    (hauth : matcher = st.authority ∨ matcher = res.provider)
    (hpend : req.status = RequestStatus.Pending)
    (hact : res.is_active = true)
    (hpow : req.required_power ≤ res.computation_power)
    (hmem : req.required_memory ≤ res.available_memory)
    (hprice : res.price_per_unit ≤ req.max_price_per_unit)
    (hne : resource_id ≠ res.resource_id) :
    ∃ st' req', match_resource matcher request_id resource_id st req res =
      Except.ok (st', req') ∧
      req'.matched_resource = some resource_id ∧
      req'.matched_resource ≠ some res.resource_id := by
  refine ⟨_, _, match_resource_ok_of matcher request_id resource_id st req res
    hauth hpend hact hpow hmem hprice, rfl, ?_⟩
  intro h
  exact hne (Option.some.inj h)

/-- C10 witness: matching with argument 42 against the resource whose id is 0
succeeds and records 42. -/
theorem c10_matched_resource_arg_witness :
    ∃ st' req', match_resource 100 0 42 stFix reqFix resFix =
      Except.ok (st', req') ∧
      req'.matched_resource = some 42 ∧
      req'.matched_resource ≠ some resFix.resource_id :=
  c10_matched_resource_arg 100 0 42 stFix reqFix resFix (Or.inl (by decide))
    (by decide) (by decide) (by decide) (by decide) (by decide) (by decide)

/-- Fixture: a request already matched to resource id 0. -/
def reqMatched : ComputationRequest :=
  ⟨0, 8, "ML", 50, 32, 20, some "US", 5, RequestStatus.Matched, some 0⟩

/-- Fixture: system state with three active matches. -/
def stActive : SystemState := ⟨100, 1, 1, 3⟩

/-- C5 counterexample: with the authorization, matched-status and
matched-resource preconditions all holding and `active_matches = 0`,
`complete_computation` fails by the arithmetic abort of the unguarded
`active_matches -= 1`, not with any program error code — the program defines
no `CounterUnderflow` error. -/
theorem c5_underflow_cex :
    stFix.active_matches = 0 ∧
    reqMatched.status = RequestStatus.Matched ∧
    reqMatched.matched_resource = some resFix.resource_id ∧
    complete_computation 8 0 7 true stFix reqMatched resFix =
      Except.error TxError.overflow ∧
    (∀ e : ErrorCode,
      complete_computation 8 0 7 true stFix reqMatched resFix ≠
        Except.error (TxError.prog e)) := by
  decide

/-- C5 amended: the decrement of `active_matches` is an unguarded checked
subtraction.  When the three program preconditions hold: if `active_matches`
is 0 the instruction aborts with the arithmetic-overflow failure (there is no
`CounterUnderflow` error code) and, being rolled back, the counter does not
wrap; otherwise (when the usage-time add also fits) the operation succeeds
and `active_matches` decreases by exactly 1. -/
theorem c5_decrement_behavior (caller : Pubkey)
    (request_id actual_duration : Nat) (success : Bool) (st : SystemState)
    (req : ComputationRequest) (res : ResourceAccount)
    (hauth : caller = req.requester ∨ caller = res.provider ∨
      caller = st.authority)
    (hmatched : req.status = RequestStatus.Matched)
    (hres : req.matched_resource = some res.resource_id) :
    (st.active_matches = 0 →
      complete_computation caller request_id actual_duration success st req
        res = Except.error TxError.overflow) ∧
    (1 ≤ st.active_matches →
      res.total_usage_time + actual_duration < 2 ^ 64 →
      ∃ req' res',
        complete_computation caller request_id actual_duration success st req
          res = Except.ok
            (⟨st.authority, st.resource_count, st.computation_request_count,
              st.active_matches - 1⟩, req', res')) := by
  constructor
  · intro h0
    unfold complete_computation
    rw [if_pos hauth, if_pos hmatched, if_pos hres]
    by_cases h4 : res.total_usage_time + actual_duration < 2 ^ 64
    · rw [if_pos h4, if_neg (by omega)]
    · rw [if_neg h4]
  · intro h1 h4
    exact ⟨_, _, complete_computation_ok_of caller request_id actual_duration
      success st req res hauth hmatched hres h4 h1⟩

/-- C5 amended witness: with three active matches, completion leaves two. -/
theorem c5_decrement_behavior_witness :
    ∃ req' res',
      complete_computation 8 0 7 true stActive reqMatched resFix =
        Except.ok (⟨100, 1, 1, 2⟩, req', res') :=
  (c5_decrement_behavior 8 0 7 true stActive reqMatched resFix
    (Or.inl (by decide)) (by decide) (by decide)).2 (by decide) (by decide)

/-- Fixture for C6: a matched resource whose accumulated usage time is the
u64 maximum. -/
def resBigUsage : ResourceAccount :=
  ⟨0, 7, "CPU", 100, 64, "US", 10, true, 0, 2 ^ 64 - 1⟩

/-- C6 counterexample: with every completion precondition holding and
`total_usage_time` at the u64 maximum, `complete_computation` does not update
the usage time by a saturating add — the unguarded `+=` aborts the whole
instruction instead, so no update happens at all. -/
theorem c6_usage_cex :
    reqMatched.status = RequestStatus.Matched ∧
    reqMatched.matched_resource = some resBigUsage.resource_id ∧
    1 ≤ stActive.active_matches ∧
    complete_computation 8 0 5 true stActive reqMatched resBigUsage =
      Except.error TxError.overflow := by
  decide

theorem applyStep_ok (c : Chain) (op : Op) (c' : Chain)
    (h : stepChain c op = Except.ok c') : applyStep c op = c' := by
  unfold applyStep; rw [h]

theorem applyStep_error (c : Chain) (op : Op) (e : TxError)
    (h : stepChain c op = Except.error e) : applyStep c op = c := by
  unfold applyStep; rw [h]

theorem countP_set_of_getElem? {α : Type} (p : α → Bool) (l : List α) :
    ∀ (i : Nat) (a b : α), l[i]? = some a →
      (l.set i b).countP p + (if p a then 1 else 0) =
        l.countP p + (if p b then 1 else 0) := by
  induction l with
  | nil => intro i a b h; simp at h
  | cons x tl ih =>
      intro i a b h
      cases i with
      | zero =>
          rw [List.getElem?_cons_zero] at h
          injection h with h
          subst h
          rw [show (x :: tl).set 0 b = b :: tl from rfl]
          simp only [List.countP_cons]
          omega
      | succ j =>
          rw [List.getElem?_cons_succ] at h
          have := ih j a b h
          rw [show (x :: tl).set (j + 1) b = x :: tl.set j b from rfl]
          simp only [List.countP_cons]
          omega

theorem map_set_congr {α β : Type} (f : α → β) (l : List α) :
    ∀ (i : Nat) (a b : α), l[i]? = some a → f b = f a →
      (l.set i b).map f = l.map f := by
  induction l with
  | nil => intro i a b h _; simp at h
  | cons x tl ih =>
      intro i a b h hf
      cases i with
      | zero =>
          rw [List.getElem?_cons_zero] at h
          injection h with h
          subst h
          rw [show (x :: tl).set 0 b = b :: tl from rfl]
          simp only [List.map_cons]
          rw [hf]
      | succ j =>
          rw [List.getElem?_cons_succ] at h
          rw [show (x :: tl).set (j + 1) b = x :: tl.set j b from rfl]
          simp only [List.map_cons]
          rw [ih j a b h hf]

theorem lt_of_getElem? {α : Type} (l : List α) (i : Nat) (a : α)
    (h : l[i]? = some a) : i < l.length :=
  (List.getElem?_eq_some.mp h).1

theorem getD_of_getElem? {α : Type} (l : List α) (i : Nat) (a d : α)
    (h : l[i]? = some a) : l.getD i d = a := by
  obtain ⟨hlt, heq⟩ := List.getElem?_eq_some.mp h
  rw [List.getD_eq_getElem l d hlt]
  exact heq

/-- The representation invariant maintained by every instruction: the gauge
matches the number of `Matched` requests, and each catalog's ids are exactly
`0, 1, …, length-1` with the counter equal to the length. -/
def ChainInv (c : Chain) : Prop :=
  c.system.active_matches = countMatched c.requests ∧
  c.resources.map (fun r => r.resource_id) = List.range c.resources.length ∧
  c.system.resource_count = c.resources.length ∧
  c.requests.map (fun r => r.request_id) = List.range c.requests.length ∧
  c.system.computation_request_count = c.requests.length

theorem chainInv_init (a : Pubkey) : ChainInv (initChain a) :=
  ⟨rfl, rfl, rfl, rfl, rfl⟩

theorem chainInv_step (c : Chain) (op : Op) (h : ChainInv c) :
    ChainInv (applyStep c op) := by
  obtain ⟨h1, h2, h3, h4, h5⟩ := h
  cases op with
  | register p ty pow mem loc price =>
      rw [applyStep_ok c (Op.register p ty pow mem loc price) _ rfl]
      have hid : (register_resource p ty pow mem loc price c.system).2.resource_id =
          c.resources.length := h3
      refine ⟨h1, ?_, ?_, h4, h5⟩
      · show (c.resources ++
            [(register_resource p ty pow mem loc price c.system).2]).map
              (fun r => r.resource_id) =
          List.range (c.resources ++
            [(register_resource p ty pow mem loc price c.system).2]).length
        rw [List.map_append, h2, List.length_append]
        simp only [List.map_cons, List.map_nil, List.length_cons,
          List.length_nil, Nat.zero_add]
        rw [hid, List.range_succ]
      · show c.system.resource_count + 1 =
          (c.resources ++
            [(register_resource p ty pow mem loc price c.system).2]).length
        rw [List.length_append, h3]
        rfl
  | submit rq ty pow mem maxp ploc dur =>
      rw [applyStep_ok c (Op.submit rq ty pow mem maxp ploc dur) _ rfl]
      have hid : (submit_computation_request rq ty pow mem maxp ploc dur
          c.system).2.request_id = c.requests.length := h5
      refine ⟨?_, h2, h3, ?_, ?_⟩
      · show c.system.active_matches =
          countMatched (c.requests ++
            [(submit_computation_request rq ty pow mem maxp ploc dur c.system).2])
        unfold countMatched at h1 ⊢
        rw [List.countP_append, ← h1]
        simp [submit_computation_request, List.countP_cons]
      · show (c.requests ++
            [(submit_computation_request rq ty pow mem maxp ploc dur
              c.system).2]).map (fun r => r.request_id) =
          List.range (c.requests ++
            [(submit_computation_request rq ty pow mem maxp ploc dur
              c.system).2]).length
        rw [List.map_append, h4, List.length_append]
        simp only [List.map_cons, List.map_nil, List.length_cons,
          List.length_nil, Nat.zero_add]
        rw [hid, List.range_succ]
      · show c.system.computation_request_count + 1 =
          (c.requests ++
            [(submit_computation_request rq ty pow mem maxp ploc dur
              c.system).2]).length
        rw [List.length_append, h5]
        rfl
  | matchOp m reqIdx resIdx rid sid =>
      cases hreq : c.requests[reqIdx]? with
      | none =>
          rw [applyStep_error c _ TxError.badAccount (by simp [stepChain, hreq])]
          exact ⟨h1, h2, h3, h4, h5⟩
      | some req =>
          cases hres : c.resources[resIdx]? with
          | none =>
              rw [applyStep_error c _ TxError.badAccount
                (by simp [stepChain, hreq, hres])]
              exact ⟨h1, h2, h3, h4, h5⟩
          | some res =>
              cases hm : match_resource m rid sid c.system req res with
              | error e =>
                  rw [applyStep_error c _ e (by simp [stepChain, hreq, hres, hm])]
                  exact ⟨h1, h2, h3, h4, h5⟩
              | ok out =>
                  obtain ⟨st', req'⟩ := out
                  obtain ⟨hst, hreq', hauth, hpend, hact, hpow, hmem2, hprice⟩ :=
                    match_resource_inv m rid sid c.system req res st' req' hm
                  rw [applyStep_ok c _
                    ⟨st', c.resources, c.requests.set reqIdx req'⟩
                    (by simp [stepChain, hreq, hres, hm])]
                  have hcount := countP_set_of_getElem?
                    (fun r => r.status = RequestStatus.Matched) c.requests
                    reqIdx req req' hreq
                  have hpf : (decide (req.status = RequestStatus.Matched)) = false := by
                    simp [hpend]
                  have hpt : (decide (req'.status = RequestStatus.Matched)) = true := by
                    rw [hreq']
                    rfl
                  simp [hpf, hpt] at hcount
                  refine ⟨?_, h2, ?_, ?_, ?_⟩
                  · show st'.active_matches = countMatched (c.requests.set reqIdx req')
                    rw [hst]
                    show c.system.active_matches + 1 = _
                    rw [h1]
                    unfold countMatched at *
                    omega
                  · show st'.resource_count = c.resources.length
                    rw [hst]
                    exact h3
                  · show (c.requests.set reqIdx req').map (fun r => r.request_id) = _
                    rw [map_set_congr (fun r => r.request_id) c.requests reqIdx
                      req req' hreq (by rw [hreq']), List.length_set]
                    exact h4
                  · show st'.computation_request_count =
                      (c.requests.set reqIdx req').length
                    rw [hst, List.length_set]
                    exact h5
  | completeOp caller reqIdx resIdx rid dur success =>
      cases hreq : c.requests[reqIdx]? with
      | none =>
          rw [applyStep_error c _ TxError.badAccount (by simp [stepChain, hreq])]
          exact ⟨h1, h2, h3, h4, h5⟩
      | some req =>
          cases hres : c.resources[resIdx]? with
          | none =>
              rw [applyStep_error c _ TxError.badAccount
                (by simp [stepChain, hreq, hres])]
              exact ⟨h1, h2, h3, h4, h5⟩
          | some res =>
              cases hm : complete_computation caller rid dur success c.system req res with
              | error e =>
                  rw [applyStep_error c _ e (by simp [stepChain, hreq, hres, hm])]
                  exact ⟨h1, h2, h3, h4, h5⟩
              | ok out =>
                  obtain ⟨st', req', res'⟩ := out
                  obtain ⟨hst, hreq', hres', hauth, hmatched, hmr, hfit, hpos⟩ :=
                    complete_computation_inv caller rid dur success c.system req
                      res st' req' res' hm
                  rw [applyStep_ok c _
                    ⟨st', c.resources.set resIdx res', c.requests.set reqIdx req'⟩
                    (by simp [stepChain, hreq, hres, hm])]
                  have hcount := countP_set_of_getElem?
                    (fun r => r.status = RequestStatus.Matched) c.requests
                    reqIdx req req' hreq
                  have hpt : (decide (req.status = RequestStatus.Matched)) = true := by
                    simp [hmatched]
                  have hpf : (decide (req'.status = RequestStatus.Matched)) = false := by
                    rw [hreq']
                    cases success <;> rfl
                  simp [hpt, hpf] at hcount
                  refine ⟨?_, ?_, ?_, ?_, ?_⟩
                  · show st'.active_matches = countMatched (c.requests.set reqIdx req')
                    rw [hst]
                    show c.system.active_matches - 1 = _
                    rw [h1]
                    unfold countMatched at *
                    omega
                  · show (c.resources.set resIdx res').map (fun r => r.resource_id) = _
                    rw [map_set_congr (fun r => r.resource_id) c.resources resIdx
                      res res' hres (by rw [hres']), List.length_set]
                    exact h2
                  · show st'.resource_count = (c.resources.set resIdx res').length
                    rw [hst, List.length_set]
                    exact h3
                  · show (c.requests.set reqIdx req').map (fun r => r.request_id) = _
                    rw [map_set_congr (fun r => r.request_id) c.requests reqIdx
                      req req' hreq (by rw [hreq']), List.length_set]
                    exact h4
                  · show st'.computation_request_count =
                      (c.requests.set reqIdx req').length
                    rw [hst, List.length_set]
                    exact h5

theorem chainInv_run (c : Chain) (ops : List Op) (h : ChainInv c) :
    ChainInv (runChain c ops) := by
  induction ops generalizing c with
  | nil => exact h
  | cons op tl ih => exact ih (applyStep c op) (chainInv_step c op h)

/-- C3: after any sequence of register / submit / match / complete
instructions from the initialized system, `active_matches` equals the number
of requests in `Matched` status. -/
theorem c3_gauge_consistency (a : Pubkey) (ops : List Op) :
    (runChain (initChain a) ops).system.active_matches =
      countMatched (runChain (initChain a) ops).requests :=
  (chainInv_run (initChain a) ops (chainInv_init a)).1

/-- C9: after any sequence of instructions from the initialized system, the
ids in each catalog, in order of assignment, are strictly increasing — hence
pairwise distinct and never reused. -/
theorem c9_id_monotonicity (a : Pubkey) (ops : List Op) :
    List.Pairwise (fun x y => x < y)
      ((runChain (initChain a) ops).resources.map (fun r => r.resource_id)) ∧
    List.Pairwise (fun x y => x < y)
      ((runChain (initChain a) ops).requests.map (fun r => r.request_id)) := by
  obtain ⟨-, h2, -, h4, -⟩ := chainInv_run (initChain a) ops (chainInv_init a)
  rw [h2, h4]
  exact ⟨List.pairwise_lt_range _, List.pairwise_lt_range _⟩

/-- Concrete run for the C2 counterexample: one resource, two requests, and
two match instructions pairing both requests with resource 0. -/
def c2ops : List Op :=
  [Op.register 7 "GPU" 100 64 "US" 10,
   Op.submit 8 "ML" 50 32 20 none 5,
   Op.submit 9 "ML" 50 32 20 none 5,
   Op.matchOp 100 0 0 0 0,
   Op.matchOp 100 1 0 1 0]

/-- Final state of the C2 counterexample run. -/
def c2state : Chain := runChain (initChain 100) c2ops

/-- C2 counterexample: in the reachable state `c2state`, two distinct
requests (ids 0 and 1) are both in `Matched` status with the same
`matched_resource = some 0` — the code never checks whether a resource is
already engaged, so exclusivity fails. -/
theorem c2_exclusivity_cex :
    (c2state.requests.getD 0 defaultRequest).status = RequestStatus.Matched ∧
    (c2state.requests.getD 1 defaultRequest).status = RequestStatus.Matched ∧
    (c2state.requests.getD 0 defaultRequest).request_id ≠
      (c2state.requests.getD 1 defaultRequest).request_id ∧
    (c2state.requests.getD 0 defaultRequest).matched_resource = some 0 ∧
    (c2state.requests.getD 1 defaultRequest).matched_resource = some 0 := by
  decide

/-- C2 amended: `match_resource` never inspects other requests, so a pending
request can be matched to a resource that is already the `matched_resource`
of another `Matched` request; both requests are then `Matched` on the same
resource id (the code permits multiple concurrent engagements per
resource). -/
theorem c2_no_exclusivity (c : Chain) (m : Pubkey)
    (reqIdx resIdx rid sid j : Nat) (req reqJ : ComputationRequest)
    (res : ResourceAccount)
    (hreq : c.requests[reqIdx]? = some req)
    (hres : c.resources[resIdx]? = some res)
    (hauth : m = c.system.authority ∨ m = res.provider)
    (hpend : req.status = RequestStatus.Pending)
    (hact : res.is_active = true)
    (hpow : req.required_power ≤ res.computation_power)
    (hmem : req.required_memory ≤ res.available_memory)
    (hprice : res.price_per_unit ≤ req.max_price_per_unit)
    (hj : c.requests[j]? = some reqJ)
    (hjm : reqJ.status = RequestStatus.Matched)
    (hjr : reqJ.matched_resource = some sid)
    (hne : j ≠ reqIdx) :
    ∃ c', stepChain c (Op.matchOp m reqIdx resIdx rid sid) = Except.ok c' ∧
      c'.requests[j]? = some reqJ ∧
      c'.requests[reqIdx]? = some
        { req with
            status := RequestStatus.Matched,
            matched_resource := some sid } ∧
      reqJ.status = RequestStatus.Matched ∧
      reqJ.matched_resource = some sid := by
  have hok := match_resource_ok_of m rid sid c.system req res hauth hpend hact
    hpow hmem hprice
  have hstep : stepChain c (Op.matchOp m reqIdx resIdx rid sid) =
      Except.ok ⟨⟨c.system.authority, c.system.resource_count,
        c.system.computation_request_count, c.system.active_matches + 1⟩,
        c.resources,
        c.requests.set reqIdx
          { req with
              status := RequestStatus.Matched,
              matched_resource := some sid }⟩ := by
    simp [stepChain, hreq, hres, hok]
  refine ⟨_, hstep, ?_, ?_, hjm, hjr⟩
  · show (c.requests.set reqIdx _)[j]? = some reqJ
    rw [List.getElem?_set_ne (Ne.symm hne)]
    exact hj
  · exact List.getElem?_set_eq_of_lt _ (lt_of_getElem? c.requests reqIdx req hreq)

/-- Reachable state for the C2 amended witness: request 0 already matched to
resource 0, request 1 still pending. -/
def c2midstate : Chain := runChain (initChain 100) (c2ops.take 4)

/-- C2 amended witness: matching pending request 1 to the already-engaged
resource 0 succeeds. -/
theorem c2_no_exclusivity_witness :
    ∃ c', stepChain c2midstate (Op.matchOp 100 1 0 1 0) = Except.ok c' ∧
      c'.requests[0]? = some
        ⟨0, 8, "ML", 50, 32, 20, none, 5, RequestStatus.Matched, some 0⟩ ∧
      c'.requests[1]? = some
        { (⟨1, 9, "ML", 50, 32, 20, none, 5, RequestStatus.Pending, none⟩ :
            ComputationRequest) with
            status := RequestStatus.Matched,
            matched_resource := some 0 } ∧
      (⟨0, 8, "ML", 50, 32, 20, none, 5, RequestStatus.Matched, some 0⟩ :
        ComputationRequest).status = RequestStatus.Matched ∧
      (⟨0, 8, "ML", 50, 32, 20, none, 5, RequestStatus.Matched, some 0⟩ :
        ComputationRequest).matched_resource = some 0 :=
  c2_no_exclusivity c2midstate 100 1 0 1 0 0
    ⟨1, 9, "ML", 50, 32, 20, none, 5, RequestStatus.Pending, none⟩
    ⟨0, 8, "ML", 50, 32, 20, none, 5, RequestStatus.Matched, some 0⟩
    ⟨0, 7, "GPU", 100, 64, "US", 10, true, 0, 0⟩
    (by decide) (by decide) (Or.inl (by decide)) (by decide) (by decide)
    (by decide) (by decide) (by decide) (by decide) (by decide) (by decide)
    (by decide)

/-- C8: a failed instruction leaves the ledger unchanged — validation
precedes every write in the program, and the runtime rolls back aborted
transactions, so no error mutates any counter, resource or request. -/
theorem c8_failure_no_mutation (c : Chain) (op : Op) (e : TxError)
    (h : stepChain c op = Except.error e) : applyStep c op = c := by
  unfold applyStep
  rw [h]

/-- C8 witness: a match referring to missing accounts fails and changes
nothing. -/
theorem c8_failure_no_mutation_witness :
    stepChain (initChain 0) (Op.matchOp 0 0 0 0 0) =
      Except.error TxError.badAccount ∧
    applyStep (initChain 0) (Op.matchOp 0 0 0 0 0) = initChain 0 :=
  ⟨by decide,
   c8_failure_no_mutation (initChain 0) (Op.matchOp 0 0 0 0 0)
     TxError.badAccount (by decide)⟩

theorem getD_set_ne {α : Type} (l : List α) (k i : Nat) (b d : α)
    (h : k ≠ i) : (l.set k b).getD i d = l.getD i d := by
  rcases Nat.lt_or_ge i l.length with hlt | hge
  · rw [List.getD_eq_getElem _ _ (by rw [List.length_set]; exact hlt),
      List.getD_eq_getElem _ _ hlt]
    exact List.getElem_set_ne h _
  · rw [List.getD_eq_default _ _ (by rw [List.length_set]; exact hge),
      List.getD_eq_default _ _ hge]

theorem usage_le_applyStep (c : Chain) (op : Op) (i : Nat) :
    (c.resources.getD i defaultResource).total_usage_time ≤
    ((applyStep c op).resources.getD i defaultResource).total_usage_time := by
  cases op with
  | register p ty pow mem loc price =>
      rw [applyStep_ok c (Op.register p ty pow mem loc price) _ rfl]
      show _ ≤ ((c.resources ++
        [(register_resource p ty pow mem loc price c.system).2]).getD i
          defaultResource).total_usage_time
      rcases Nat.lt_or_ge i c.resources.length with hlt | hge
      · have he : (c.resources ++
            [(register_resource p ty pow mem loc price c.system).2]).getD i
              defaultResource = c.resources.getD i defaultResource := by
          rw [List.getD_eq_getElem _ _ (by rw [List.length_append]; omega),
            List.getD_eq_getElem _ _ hlt]
          exact List.getElem_append_left hlt
        rw [he]
      · rw [List.getD_eq_default _ _ hge]
        exact Nat.zero_le _
  | submit rq ty pow mem maxp ploc dur =>
      rw [applyStep_ok c (Op.submit rq ty pow mem maxp ploc dur) _ rfl]
  | matchOp m reqIdx resIdx rid sid =>
      cases hreq : c.requests[reqIdx]? with
      | none =>
          rw [applyStep_error c _ TxError.badAccount (by simp [stepChain, hreq])]
      | some req =>
          cases hres : c.resources[resIdx]? with
          | none =>
              rw [applyStep_error c _ TxError.badAccount
                (by simp [stepChain, hreq, hres])]
          | some res =>
              cases hm : match_resource m rid sid c.system req res with
              | error e =>
                  rw [applyStep_error c _ e (by simp [stepChain, hreq, hres, hm])]
              | ok out =>
                  obtain ⟨st', req'⟩ := out
                  rw [applyStep_ok c _
                    ⟨st', c.resources, c.requests.set reqIdx req'⟩
                    (by simp [stepChain, hreq, hres, hm])]
  | completeOp caller reqIdx resIdx rid dur success =>
      cases hreq : c.requests[reqIdx]? with
      | none =>
          rw [applyStep_error c _ TxError.badAccount (by simp [stepChain, hreq])]
      | some req =>
          cases hres : c.resources[resIdx]? with
          | none =>
              rw [applyStep_error c _ TxError.badAccount
                (by simp [stepChain, hreq, hres])]
          | some res =>
              cases hm : complete_computation caller rid dur success c.system
                  req res with
              | error e =>
                  rw [applyStep_error c _ e (by simp [stepChain, hreq, hres, hm])]
              | ok out =>
                  obtain ⟨st', req', res'⟩ := out
                  obtain ⟨hst, hreq', hres', -, -, -, -, -⟩ :=
                    complete_computation_inv caller rid dur success c.system req
                      res st' req' res' hm
                  rw [applyStep_ok c _
                    ⟨st', c.resources.set resIdx res', c.requests.set reqIdx req'⟩
                    (by simp [stepChain, hreq, hres, hm])]
                  show _ ≤ ((c.resources.set resIdx res').getD i
                    defaultResource).total_usage_time
                  by_cases hij : resIdx = i
                  · subst hij
                    have hg1 : (c.resources.set resIdx res').getD resIdx
                        defaultResource = res' :=
                      getD_of_getElem? _ _ _ _
                        (List.getElem?_set_eq_of_lt _
                          (lt_of_getElem? c.resources resIdx res hres))
                    have hg2 : c.resources.getD resIdx defaultResource = res :=
                      getD_of_getElem? _ _ _ _ hres
                    rw [hg1, hg2, hres']
                    exact Nat.le_add_right _ _
                  · rw [getD_set_ne c.resources resIdx i res' defaultResource hij]

theorem usage_le_runChain (c : Chain) (ops : List Op) (i : Nat) :
    (c.resources.getD i defaultResource).total_usage_time ≤
    ((runChain c ops).resources.getD i defaultResource).total_usage_time := by
  induction ops generalizing c with
  | nil => exact Nat.le_refl _
  | cons op tl ih =>
      exact Nat.le_trans (usage_le_applyStep c op i) (ih (applyStep c op))

/-- C6 amended: the usage-time update is a checked (not saturating) add —
when the completion preconditions hold and the sum fits in u64 the resource's
`total_usage_time` grows by exactly `actual_duration` — and across every
sequence of instructions a resource's `total_usage_time` never decreases
(an overflowing add aborts the instruction instead of wrapping). -/
theorem c6_usage_checked_monotone :
    (∀ (c : Chain) (ops : List Op) (i : Nat),
      (c.resources.getD i defaultResource).total_usage_time ≤
      ((runChain c ops).resources.getD i defaultResource).total_usage_time) ∧
    (∀ (caller request_id actual_duration : Nat) (success : Bool)
      (st : SystemState) (req : ComputationRequest) (res : ResourceAccount),
      (caller = req.requester ∨ caller = res.provider ∨
        caller = st.authority) →
      req.status = RequestStatus.Matched →
      req.matched_resource = some res.resource_id →
      res.total_usage_time + actual_duration < 2 ^ 64 →
      1 ≤ st.active_matches →
      ∃ st' req' rep,
        complete_computation caller request_id actual_duration success st req
          res = Except.ok (st', req',
            { res with
                total_usage_time := res.total_usage_time + actual_duration,
                reputation_score := rep })) := by
  constructor
  · exact usage_le_runChain
  · intro caller request_id actual_duration success st req res hauth hmatched
      hmr hfit hpos
    exact ⟨_, _, _, complete_computation_ok_of caller request_id
      actual_duration success st req res hauth hmatched hmr hfit hpos⟩

/-- C6 amended witness: completing with duration 7 grows usage time from 0 to
exactly 7. -/
theorem c6_usage_checked_monotone_witness :
    ∃ st' req' rep,
      complete_computation 8 0 7 true stActive reqMatched resFix =
        Except.ok (st', req',
          { resFix with
              total_usage_time := resFix.total_usage_time + 7,
              reputation_score := rep }) :=
  c6_usage_checked_monotone.2 8 0 7 true stActive reqMatched resFix
    (Or.inl (by decide)) (by decide) (by decide) (by decide) (by decide)

/-- Modelled from the spec: resource shape seen by `selectBestCandidate`
(§4.3).  The selection algorithm itself is missing from the source — in
`src/contracts/src/resource_matching.rs`, `process_match_request` leaves the
matching algorithm as a comment — so the candidate record follows the spec's
words: id, capability fields, price, location, activity and reputation. -/
structure SpecResource where
  id : Nat
  computePower : Nat
  memory : Nat
  pricePerUnit : Nat
  location : String
  isActive : Bool
  reputationScore : Int
deriving DecidableEq, Repr

/-- Modelled from the spec: request shape seen by `selectBestCandidate`
(§4.3): required capability, price ceiling, optional preferred location and
minimum reputation. -/
structure SpecRequest where
  requiredPower : Nat
  requiredMemory : Nat
  maxPricePerUnit : Nat
  preferredLocation : Option String
  minReputation : Int
deriving DecidableEq, Repr

/-- Modelled from the spec: a resource qualifies when it passes preconditions
3-5 and 7 — active, capability dominating, price within ceiling, reputation
at least the required minimum. -/
def qualifies (req : SpecRequest) (r : SpecResource) : Bool :=
  r.isActive && decide (req.requiredPower ≤ r.computePower) &&
    decide (req.requiredMemory ≤ r.memory) &&
    decide (r.pricePerUnit ≤ req.maxPricePerUnit) &&
    decide (req.minReputation ≤ r.reputationScore)

/-- Modelled from the spec: the deterministic ranking — ascending
`pricePerUnit`, tie-broken by descending `reputationScore`, tie-broken by
ascending `id`. -/
def rankBefore (a b : SpecResource) : Prop :=
  a.pricePerUnit < b.pricePerUnit ∨
    (a.pricePerUnit = b.pricePerUnit ∧
      (b.reputationScore < a.reputationScore ∨
        (a.reputationScore = b.reputationScore ∧ a.id < b.id)))

instance (a b : SpecResource) : Decidable (rankBefore a b) := by
  unfold rankBefore
  infer_instance

/-- One fold step of the minimum search. -/
def pmStep (acc : Option SpecResource) (r : SpecResource) :
    Option SpecResource :=
  match acc with
  | none => some r
  | some b => if rankBefore r b then some r else some b

/-- Minimum of a candidate list under `rankBefore`. -/
def pickMin (l : List SpecResource) : Option SpecResource :=
  l.foldl pmStep none

/-- Modelled from the spec: whether a resource matches the request's
preferred location exactly (false when no preference is set). -/
def locMatches (req : SpecRequest) (r : SpecResource) : Bool :=
  match req.preferredLocation with
  | some loc => decide (r.location = loc)
  | none => false

/-- Modelled from the spec: `selectBestCandidate(request, resourcePool)`
filters the pool to qualifying resources, partitions into exact-location
matches and others preferring the former, and returns the id of the minimal
candidate under the deterministic ranking, or `none` if nothing qualifies. -/
def selectBestCandidate (req : SpecRequest) (pool : List SpecResource) :
    Option Nat :=
  match pickMin ((pool.filter (fun r => qualifies req r)).filter
      (fun r => locMatches req r)) with
  | some r => some r.id
  | none =>
      Option.map (fun r => r.id)
        (pickMin ((pool.filter (fun r => qualifies req r)).filter
          (fun r => !(locMatches req r))))

/-- The partition `selectBestCandidate` draws from: the exact-location
qualifiers when that partition is nonempty, the remaining qualifiers
otherwise. -/
def chosenPartition (req : SpecRequest) (pool : List SpecResource) :
    List SpecResource :=
  if (pool.filter (fun r => qualifies req r)).filter
      (fun r => locMatches req r) = [] then
    (pool.filter (fun r => qualifies req r)).filter
      (fun r => !(locMatches req r))
  else
    (pool.filter (fun r => qualifies req r)).filter (fun r => locMatches req r)

theorem rankBefore_trans (a b c : SpecResource) (h1 : rankBefore a b)
    (h2 : rankBefore b c) : rankBefore a c := by
  unfold rankBefore at h1 h2 ⊢
  omega

theorem rankBefore_irrefl (a : SpecResource) : ¬ rankBefore a a := by
  unfold rankBefore
  omega

theorem rankBefore_of_not (a b r : SpecResource) (hnab : ¬ rankBefore a b)
    (har : rankBefore a r) : rankBefore b r := by
  unfold rankBefore at hnab har ⊢
  omega

theorem pickMin_go_spec (l : List SpecResource) :
    ∀ (b r : SpecResource), l.foldl pmStep (some b) = some r →
      r ∈ b :: l ∧ ∀ x ∈ b :: l, ¬ rankBefore x r := by
  induction l with
  | nil =>
      intro b r h
      injection h with h
      subst h
      refine ⟨List.mem_singleton.mpr rfl, ?_⟩
      intro x hx
      rw [List.mem_singleton] at hx
      subst hx
      exact rankBefore_irrefl _
  | cons a tl ih =>
      intro b r h
      by_cases hr : rankBefore a b
      · rw [show (a :: tl).foldl pmStep (some b) =
            tl.foldl pmStep (pmStep (some b) a) from rfl,
          show pmStep (some b) a = some a from by simp [pmStep, hr]] at h
        obtain ⟨hmem, hmin⟩ := ih a r h
        have hna : ¬ rankBefore a r := hmin a (List.mem_cons_self _ _)
        refine ⟨?_, ?_⟩
        · rcases List.mem_cons.mp hmem with h' | h'
          · subst h'; exact List.mem_cons_of_mem _ (List.mem_cons_self _ _)
          · exact List.mem_cons_of_mem _ (List.mem_cons_of_mem _ h')
        · intro x hx
          rcases List.mem_cons.mp hx with h' | h'
          · subst h'
            intro hbr
            exact hna (rankBefore_trans a x r hr hbr)
          · exact hmin x h'
      · rw [show (a :: tl).foldl pmStep (some b) =
            tl.foldl pmStep (pmStep (some b) a) from rfl,
          show pmStep (some b) a = some b from by simp [pmStep, hr]] at h
        obtain ⟨hmem, hmin⟩ := ih b r h
        have hnb : ¬ rankBefore b r := hmin b (List.mem_cons_self _ _)
        refine ⟨?_, ?_⟩
        · rcases List.mem_cons.mp hmem with h' | h'
          · subst h'; exact List.mem_cons_self _ _
          · exact List.mem_cons_of_mem _ (List.mem_cons_of_mem _ h')
        · intro x hx
          rcases List.mem_cons.mp hx with h' | h'
          · subst h'; exact hnb
          · rcases List.mem_cons.mp h' with h'' | h''
            · subst h''
              intro har
              exact hnb (rankBefore_of_not x b r hr har)
            · exact hmin x (List.mem_cons_of_mem _ h'')

theorem pickMin_spec (l : List SpecResource) (r : SpecResource)
    (h : pickMin l = some r) : r ∈ l ∧ ∀ x ∈ l, ¬ rankBefore x r := by
  cases l with
  | nil => exact Option.noConfusion h
  | cons a tl =>
      rw [show pickMin (a :: tl) = tl.foldl pmStep (some a) from rfl] at h
      exact pickMin_go_spec tl a r h

theorem pickMin_go_ne_none (l : List SpecResource) :
    ∀ b : SpecResource, l.foldl pmStep (some b) ≠ none := by
  induction l with
  | nil => intro b h; exact Option.noConfusion h
  | cons a tl ih =>
      intro b
      by_cases hr : rankBefore a b
      · rw [show (a :: tl).foldl pmStep (some b) =
            tl.foldl pmStep (pmStep (some b) a) from rfl,
          show pmStep (some b) a = some a from by simp [pmStep, hr]]
        exact ih a
      · rw [show (a :: tl).foldl pmStep (some b) =
            tl.foldl pmStep (pmStep (some b) a) from rfl,
          show pmStep (some b) a = some b from by simp [pmStep, hr]]
        exact ih b

theorem pickMin_eq_none_iff (l : List SpecResource) :
    pickMin l = none ↔ l = [] := by
  cases l with
  | nil => exact ⟨fun _ => rfl, fun _ => rfl⟩
  | cons a tl =>
      constructor
      · intro h
        exact absurd h (pickMin_go_ne_none tl a)
      · intro h
        exact List.noConfusion h

theorem select_eq_pickMin_chosen (req : SpecRequest) (pool : List SpecResource) :
    selectBestCandidate req pool =
      Option.map (fun r => r.id) (pickMin (chosenPartition req pool)) := by
  unfold selectBestCandidate chosenPartition
  cases hp : pickMin ((pool.filter (fun r => qualifies req r)).filter
      (fun r => locMatches req r)) with
  | some r =>
      have hne : (pool.filter (fun r => qualifies req r)).filter
          (fun r => locMatches req r) ≠ [] := by
        intro h0
        rw [h0] at hp
        exact Option.noConfusion hp
      rw [if_neg hne, hp]
      rfl
  | none =>
      have he : (pool.filter (fun r => qualifies req r)).filter
          (fun r => locMatches req r) = [] := (pickMin_eq_none_iff _).mp hp
      rw [if_pos he]

/-- Fixture for C7: resource of price 5 and reputation 2. -/
def r3Fix : SpecResource := ⟨3, 100, 64, 5, "EU", true, 2⟩

/-- Fixture for C7: resource of price 5 and reputation 5. -/
def r4Fix : SpecResource := ⟨4, 100, 64, 5, "US", true, 5⟩

/-- Fixture for C7: request with no location preference that both fixture
resources satisfy. -/
def q4Fix : SpecRequest := ⟨50, 32, 20, none, 0⟩

/-- C7: `selectBestCandidate` returns `none` exactly when no resource
qualifies; when a preferred-location qualifier exists the selection is drawn
from the exact-location partition; any returned id belongs to a qualifying
candidate of the chosen partition that is minimal under the total order of
ascending price, then descending reputation, then ascending id; and on two
equal-price qualifiers with no location preference it picks the one with the
higher reputation. -/
theorem c7_select_best_candidate :
    (∀ (req : SpecRequest) (pool : List SpecResource),
      selectBestCandidate req pool = none ↔
        pool.filter (fun r => qualifies req r) = []) ∧
    (∀ (req : SpecRequest) (pool : List SpecResource),
      (pool.filter (fun r => qualifies req r)).filter
          (fun r => locMatches req r) ≠ [] →
      ∃ r, selectBestCandidate req pool = some r.id ∧
        r ∈ (pool.filter (fun r => qualifies req r)).filter
          (fun r => locMatches req r)) ∧
    (∀ (req : SpecRequest) (pool : List SpecResource) (i : Nat),
      selectBestCandidate req pool = some i →
      ∃ r ∈ chosenPartition req pool, r.id = i ∧
        ∀ x ∈ chosenPartition req pool, ¬ rankBefore x r) ∧
    selectBestCandidate q4Fix [r3Fix, r4Fix] = some 4 := by
  refine ⟨?_, ?_, ?_, by decide⟩
  · intro req pool
    rw [select_eq_pickMin_chosen]
    constructor
    · intro h
      have hpm : pickMin (chosenPartition req pool) = none := by
        cases hm : pickMin (chosenPartition req pool) with
        | none => rfl
        | some r =>
            rw [hm] at h
            exact absurd h (by simp)
      have hpart : chosenPartition req pool = [] :=
        (pickMin_eq_none_iff _).mp hpm
      unfold chosenPartition at hpart
      by_cases hpre : (pool.filter (fun r => qualifies req r)).filter
          (fun r => locMatches req r) = []
      · rw [if_pos hpre] at hpart
        cases hq : pool.filter (fun r => qualifies req r) with
        | nil => rfl
        | cons x l =>
            have hx : x ∈ pool.filter (fun r => qualifies req r) := by
              rw [hq]
              exact List.mem_cons_self _ _
            by_cases hl : locMatches req x
            · have hmem : x ∈ (pool.filter (fun r => qualifies req r)).filter
                  (fun r => locMatches req r) :=
                List.mem_filter.mpr ⟨hx, hl⟩
              rw [hpre] at hmem
              exact absurd hmem (List.not_mem_nil x)
            · have hmem : x ∈ (pool.filter (fun r => qualifies req r)).filter
                  (fun r => !(locMatches req r)) :=
                List.mem_filter.mpr ⟨hx, by simp [hl]⟩
              rw [hpart] at hmem
              exact absurd hmem (List.not_mem_nil x)
      · rw [if_neg hpre] at hpart
        exact absurd hpart hpre
    · intro h
      unfold chosenPartition
      rw [h]
      rfl
  · intro req pool hne
    cases hm : pickMin ((pool.filter (fun r => qualifies req r)).filter
        (fun r => locMatches req r)) with
    | none => exact absurd ((pickMin_eq_none_iff _).mp hm) hne
    | some r =>
        refine ⟨r, ?_, (pickMin_spec _ r hm).1⟩
        unfold selectBestCandidate
        rw [hm]
  · intro req pool i h
    rw [select_eq_pickMin_chosen] at h
    cases hm : pickMin (chosenPartition req pool) with
    | none =>
        rw [hm] at h
        exact absurd h (by simp)
    | some r =>
        rw [hm] at h
        obtain ⟨hmem, hmin⟩ := pickMin_spec _ r hm
        exact ⟨r, hmem, Option.some.inj h, hmin⟩

/-- C7 witness: the minimality clause applied to the concrete tie-break
scenario — the selected id 4 belongs to a minimal candidate of the chosen
partition. -/
theorem c7_select_best_candidate_witness :
    ∃ r ∈ chosenPartition q4Fix [r3Fix, r4Fix], r.id = 4 ∧
      ∀ x ∈ chosenPartition q4Fix [r3Fix, r4Fix], ¬ rankBefore x r :=
  c7_select_best_candidate.2.2.1 q4Fix [r3Fix, r4Fix] 4 (by decide)
